import Mathlib

/-!
Verification of the xmltokenizer streaming XML lexer (github.com/muktihari/xmltokenizer).

This file shallowly embeds the tokenizer core (tokenizer.go: the growable read
buffer, the raw-token scanner `RawToken`, the field extractor invoked by `Token`,
plus the small helpers `trim`, `clearToken`, `consumeTagName`, `consumeAttrs`,
`consumeCharData`, `consumeNonTagIdentifier`, `manageBuffer`,
`memmoveRemainingBytes`, `parseCharData`, `Reset`, `New`) and the token pool
(token.go: `GetToken`, `PutToken`, `IsEndElementOf`).

Modelling conventions:
- bytes are `Nat` values (byte codes), `[]byte` buffers are `List Nat`;
- `[]byte` fields of `Token` that Go distinguishes as nil vs non-nil-empty are
  `Option (List Nat)` (`none` = Go nil slice, `some []` = non-nil empty slice);
- the `io.Reader` is modelled as the remaining byte list of a `bytes.Reader`:
  a read delivers `min (window) (remaining)` bytes, or end-of-stream when empty;
- Go slice capacity is tracked in the explicit `bufCap` field, because
  `manageBuffer` checks its auto-grow limit only on the reallocation path;
- the scanning loops are given explicit fuel; all theorems either hold for
  every fuel value or are evaluated with ample fuel on concrete inputs;
- Go errors are the inductive `Err`; `fmt.Errorf("...: %w", e)` wrapping is a
  constructor carrying the wrapped error, and `errors.Is` is `Err.is`.
-/

namespace Xmltokenizer

/-- Byte values are modelled as `Nat` (byte codes 0..255). -/
abbrev Byte := Nat

/-- Byte list of an ASCII string literal. -/
def bstr (s : String) : List Byte := s.data.map Char.toNat

/-- Go sub-slice `b[lo:hi]`. -/
def sl (b : List Byte) (lo hi : Nat) : List Byte := (b.drop lo).take (hi - lo)

/-- `Name` from token.go: `{Prefix, Local, Full}` byte views.  The Go field
`Prefix` is called `pfx` here, `Local` is `loc`.  `none` models a nil slice. -/
structure Name where
  pfx : Option (List Byte)
  loc : Option (List Byte)
  full : Option (List Byte)
deriving DecidableEq, Repr

/-- `Attr` from token.go: `{Name, Value}`. -/
structure Attr where
  name : Name
  value : List Byte
deriving DecidableEq, Repr

/-- `Token` from token.go (current revision, as used by tokenizer.go and the
tests: `Data []byte` and an `IsEndElement bool` field). -/
structure Token where
  name : Name
  attrs : Option (List Attr)
  data : Option (List Byte)
  selfClosing : Bool
  isEndElement : Bool
deriving DecidableEq, Repr

/-- The zero value of `Token` (all slices nil, flags false). -/
def zeroToken : Token := ⟨⟨none, none, none⟩, none, none, false, false⟩

/-- Errors of the tokenizer.  `eof` is `io.EOF`, `unexpectedEOF` is
`io.ErrUnexpectedEOF`, `autoGrowExceedMaxLimit` is the sentinel
`errAutoGrowBufferExceedMaxLimit`; `couldNotGrow` is the `fmt.Errorf` wrapper
produced by `manageBuffer` and `bytePos` the `"byte pos %d: %w"` wrapper
produced by `Token`. -/
inductive Err where
  | eof
  | unexpectedEOF
  | autoGrowExceedMaxLimit
  | couldNotGrow (growSize maxLimit : Nat) (inner : Err)
  | bytePos (n : Nat) (inner : Err)
deriving DecidableEq, Repr

/-- `errors.Is`: equality at each level of the unwrap chain. -/
def Err.is : Err → Err → Bool
  | Err.couldNotGrow a b inner, target =>
      if Err.couldNotGrow a b inner = target then true else Err.is inner target
  | Err.bytePos n inner, target =>
      if Err.bytePos n inner = target then true else Err.is inner target
  | Err.eof, target => if Err.eof = target then true else false
  | Err.unexpectedEOF, target => if Err.unexpectedEOF = target then true else false
  | Err.autoGrowExceedMaxLimit, target =>
      if Err.autoGrowExceedMaxLimit = target then true else false

/-- tokenizer.go constants. -/
def defaultReadBufferSize : Nat := 4096

/-- 1000 << 10. -/
def autoGrowBufferMaxLimitSize : Nat := 1024000

/-- Default attrs buffer size (current revision: 16). -/
def defaultAttrsBufferSize : Nat := 16

/-- `options` struct from tokenizer.go. -/
structure Options where
  readBufferSize : Nat
  autoGrowBufferMaxLimitSize : Nat
  attrsBufferSize : Nat
deriving DecidableEq, Repr

/-- `defaultOptions()`. -/
def defaultOptions : Options :=
  ⟨defaultReadBufferSize, autoGrowBufferMaxLimitSize, defaultAttrsBufferSize⟩

/-- `WithReadBufferSize`: non-positive sizes fall back to the default. -/
def withReadBufferSize (size : Int) (o : Options) : Options :=
  if size ≤ 0 then { o with readBufferSize := defaultReadBufferSize }
  else { o with readBufferSize := size.toNat }

/-- `WithAutoGrowBufferMaxLimitSize`: non-positive sizes fall back to the default. -/
def withAutoGrowBufferMaxLimitSize (size : Int) (o : Options) : Options :=
  if size ≤ 0 then { o with autoGrowBufferMaxLimitSize := autoGrowBufferMaxLimitSize }
  else { o with autoGrowBufferMaxLimitSize := size.toNat }

/-- `WithAttrBufferSize`: non-positive sizes fall back to the default. -/
def withAttrBufferSize (size : Int) (o : Options) : Options :=
  if size ≤ 0 then { o with attrsBufferSize := defaultAttrsBufferSize }
  else { o with attrsBufferSize := size.toNat }

/-- `Tokenizer` struct from tokenizer.go.  `rdata` is the remaining byte list
of the underlying `bytes.Reader`; `bufCap` models `cap(t.buf)`. -/
structure Tokenizer where
  rdata : List Byte
  n : Nat
  opts : Options
  buf : List Byte
  bufCap : Nat
  cur : Nat
  err : Option Err
  token : Token
deriving DecidableEq, Repr

/-- `trimPrefix` from tokenizer.go, index loop with a skip counter.
A lone CR (not followed by LF) neither advances the counter nor stops the
scan, exactly as in the source. -/
def trimLeadingAux (b : List Byte) : Nat → Nat → Nat → List Byte
  | 0, _, start => b.drop start
  | fuel+1, i, start =>
    if i < b.length then
      let c := b.getD i 0
      if c = 13 then
        if i + 1 < b.length ∧ b.getD (i+1) 0 = 10 then trimLeadingAux b fuel (i+2) (start+2)
        else trimLeadingAux b fuel (i+1) start
      else if c = 10 ∨ c = 32 ∨ c = 9 then trimLeadingAux b fuel (i+1) (start+1)
      else b.drop start
    else b.drop start

/-- `trimPrefix` (named `trimLeading` here). -/
def trimLeading (b : List Byte) : List Byte := trimLeadingAux b (b.length + 1) 0 0

/-- `trimSuffix` inner loop: the second argument is the current index plus one
(so `0` means the loop has run past the front), the third is `end`. -/
def trimTrailingAux (b : List Byte) : Nat → Nat → Nat → List Byte
  | 0, _, e => b.take e
  | _+1, 0, e => b.take e
  | fuel+1, i+1, e =>
    let c := b.getD i 0
    if c = 10 then
      let e1 := e - 1
      let e2 := if 2 ≤ i ∧ b.getD (i-1) 0 = 13 then e1 - 1 else e1
      trimTrailingAux b fuel i e2
    else if c = 32 ∨ c = 9 then trimTrailingAux b fuel i (e - 1)
    else b.take e

/-- `trimSuffix` (named `trimTrailing` here). -/
def trimTrailing (b : List Byte) : List Byte :=
  trimTrailingAux b (b.length + 1) b.length b.length

/-- `trim` from tokenizer.go. -/
def trim (b : List Byte) : List Byte := trimTrailing (trimLeading b)

/-- `Reset`: rebind reader, clear error and counters, apply options, raise the
auto-grow limit to the read buffer size when smaller, then set up the buffer
(`make([]byte, size, size+defaultReadBufferSize)` when the retained capacity is
inadequate, otherwise a reslice of the retained storage to `size`; the stale
bytes such a reslice exposes are modelled as zeros, like a fresh make). -/
def Reset (t : Tokenizer) (rdata : List Byte) (opts : List (Options → Options)) :
    Tokenizer :=
  let o0 := opts.foldl (fun acc f => f acc) defaultOptions
  let o := if o0.readBufferSize > o0.autoGrowBufferMaxLimitSize
           then { o0 with autoGrowBufferMaxLimitSize := o0.readBufferSize } else o0
  let t1 := { t with rdata := rdata, err := none, n := 0, cur := 0, opts := o }
  if t1.bufCap ≥ o.readBufferSize + defaultReadBufferSize then
    { t1 with buf := (t1.buf.take o.readBufferSize) ++
        List.replicate (o.readBufferSize - t1.buf.length) 0 }
  else
    { t1 with buf := List.replicate o.readBufferSize 0,
              bufCap := o.readBufferSize + defaultReadBufferSize }

/-- `New`: a fresh tokenizer is a `Reset` of the zero value. -/
def New (rdata : List Byte) (opts : List (Options → Options)) : Tokenizer :=
  Reset ⟨[], 0, defaultOptions, [], 0, 0, none, zeroToken⟩ rdata opts

/-- `io.ReadAtLeast(t.r, t.buf[start:end], 1)` against a `bytes.Reader`:
the read window is `window` bytes wide; an empty reader yields `io.EOF`
(with the buffer length restored), otherwise `min window remaining` bytes are
appended and counted into `t.n`.  `cap` is the capacity after this grow step. -/
def readAtLeast (t : Tokenizer) (window cap : Nat) : Tokenizer × Option Err :=
  match t.rdata with
  | [] => ({ t with bufCap := cap }, some Err.eof)
  | _ =>
    let k := min window t.rdata.length
    ({ t with buf := t.buf ++ t.rdata.take k,
              rdata := t.rdata.drop k,
              n := t.n + k,
              bufCap := cap }, none)

/-- `manageBuffer`: grow by reslice when the new length fits the capacity
(no limit check on this path), otherwise reallocate — failing with the wrapped
`errAutoGrowBufferExceedMaxLimit` when the new length exceeds the limit — and
then read at least one byte into the newly available window. -/
def manageBuffer (t : Tokenizer) : Tokenizer × Option Err :=
  let growSize := t.buf.length + t.opts.readBufferSize
  if growSize ≤ t.bufCap then
    readAtLeast t (growSize - t.buf.length) t.bufCap
  else if growSize > t.opts.autoGrowBufferMaxLimitSize then
    (t, some (Err.couldNotGrow growSize t.opts.autoGrowBufferMaxLimitSize
                Err.autoGrowExceedMaxLimit))
  else
    readAtLeast t (growSize - t.buf.length) growSize

/-- `memmoveRemainingBytes`: drop the consumed head `[0:pivot)` and reset the
cursor; returns the new pivot (`t.cur`) and the new buffer length. -/
def memmoveRemainingBytes (t : Tokenizer) (pivot : Nat) : Tokenizer × Nat × Nat :=
  if pivot = 0 then (t, t.cur, t.buf.length)
  else ({ t with buf := t.buf.drop pivot, cur := 0 }, 0, t.buf.length - pivot)

/-- Bytes of the literal `"<![CDATA["`. -/
def cdataOpen : List Byte := bstr "<![CDATA["

/-- Inner loop of `parseCharData`: after a `<` at some position, try to match
the rest of `<![CDATA[` (index `k` of the literal) and then scan for the
closing `]]>`.  Returns the tokenizer (with `t.err` possibly set) and the
final `(pivot, pos)`. -/
def pcdInner : Nat → Tokenizer → Nat → Nat → Nat → Nat → Tokenizer × Nat × Nat
  | 0, t, pivot, pos, _, _ => (t, pivot, pos)
  | fuel+1, t, pivot, pos, j, k =>
    if j ≥ t.buf.length then
      let prevLast := t.buf.length
      let r := memmoveRemainingBytes t pivot
      let t1 := r.1
      let pivot1 := r.2.1
      let j1 := r.2.2
      let pos1 := pos - (prevLast - t1.buf.length)
      let m := manageBuffer t1
      match m.2 with
      | some e =>
        let e1 := if Err.is e Err.eof then Err.unexpectedEOF else e
        ({ m.1 with err := some e1 }, pivot1, pos1)
      | none => pcdInner fuel m.1 pivot1 pos1 j1 k
    else
      let c := t.buf.getD j 0
      if k < cdataOpen.length then
        if c ≠ cdataOpen.getD k 0 then (t, pivot, pos)
        else pcdInner fuel t pivot pos (j+1) (k+1)
      else
        if c = 62 ∧ sl t.buf (j-2) (j+1) = bstr "]]>" then (t, pivot, j)
        else pcdInner fuel t pivot pos (j+1) k

/-- Outer loop of `parseCharData`: scan forward from `i` for the next `<`,
refilling the buffer as needed (a refill failure records the error in `t.err`
and stops, leaving `pos` at the end of the buffered data). -/
def pcdOuter : Nat → Tokenizer → Nat → Nat → Nat → Tokenizer × Nat × Nat
  | 0, t, pivot, pos, _ => (t, pivot, pos)
  | fuel+1, t, pivot, pos, i =>
    if i ≥ t.buf.length then
      let r := memmoveRemainingBytes t pivot
      let t1 := r.1
      let pivot1 := r.2.1
      let i1 := r.2.2
      let pos1 := i1 - 1
      let m := manageBuffer t1
      match m.2 with
      | some e => ({ m.1 with err := some e }, pivot1, pos1)
      | none => pcdOuter fuel m.1 pivot1 pos1 i1
    else
      if t.buf.getD i 0 ≠ 60 then pcdOuter fuel t pivot pos (i+1)
      else pcdInner fuel t pivot (i-1) (i+1) 1

/-- `parseCharData`: include a following run of character data (or a full
`<![CDATA[ … ]]>` construct) into the current token span. -/
def parseCharData (t : Tokenizer) (pivot pos fuel : Nat) : Tokenizer × Nat × Nat :=
  pcdOuter fuel t pivot pos (pos + 1)

/-- Main loop of `RawToken`: bracket-depth scanning.  On a refill failure the
error is recorded sticky (escalating plain end-of-stream to
`io.ErrUnexpectedEOF` when the depth is unmatched) and the partial span
`t.buf[pivot:pos]` is returned alongside it. -/
def rawTokenLoop : Nat → Tokenizer → Nat → Nat → Int →
    Tokenizer × List Byte × Option Err
  | 0, t, _, _, _ => (t, [], none)
  | fuel+1, t, pivot, pos, openclose =>
    if pos ≥ t.buf.length then
      let r := memmoveRemainingBytes t pivot
      let t1 := r.1
      let pivot1 := r.2.1
      let pos1 := r.2.2
      let m := manageBuffer t1
      match m.2 with
      | some e =>
        let e1 := if openclose ≠ 0 ∧ Err.is e Err.eof then Err.unexpectedEOF else e
        ({ m.1 with err := some e1 }, sl m.1.buf pivot1 pos1, some e1)
      | none => rawTokenLoop fuel m.1 pivot1 pos1 openclose
    else
      let c := t.buf.getD pos 0
      if c = 60 then
        rawTokenLoop fuel t (if openclose = 0 then pos else pivot) (pos+1) (openclose+1)
      else if c = 62 then
        let oc := openclose - 1
        if oc ≠ 0 then rawTokenLoop fuel t pivot (pos+1) oc
        else
          let nxt := t.buf.getD (pivot+1) 0
          if nxt = 63 ∨ nxt = 33 then
            ({ t with cur := pos+1 }, trim (sl t.buf pivot (pos+1)), none)
          else
            let p := parseCharData t pivot pos fuel
            let t1 := p.1
            let pivot1 := p.2.1
            let pos1 := p.2.2
            ({ t1 with cur := pos1+1 }, trim (sl t1.buf pivot1 (pos1+1)), none)
      else rawTokenLoop fuel t pivot (pos+1) openclose

/-- `RawToken`: sticky-error check, then the scanning loop from `t.cur`. -/
def Tokenizer.RawToken (t : Tokenizer) (fuel : Nat) :
    Tokenizer × List Byte × Option Err :=
  match t.err with
  | some e => (t, [], some e)
  | none => rawTokenLoop fuel t t.cur t.cur 0

/-- `clearToken`: nil out all name parts and data, reset the attrs length to
zero (the storage stays non-nil: `Attrs[:0]`), clear both flags. -/
def clearToken : Token :=
  ⟨⟨none, none, none⟩, some [], none, false, false⟩

/-- `consumeNonTagIdentifier`: a span starting `<?` or `<!` becomes the raw
`Data` verbatim with `SelfClosing` set; anything else passes through. -/
def consumeNonTagIdentifier (tok : Token) (b : List Byte) : Token × List Byte :=
  if b.length < 2 ∨ (b.take 2 ≠ bstr "<?" ∧ b.take 2 ≠ bstr "<!") then (tok, b)
  else ({ tok with data := some b, selfClosing := true }, [])

/-- Loop of `consumeTagName`: index `i`, slice starts `pos` (after a prefix
colon) and `fullpos` (after the `<`). -/
def ctnLoop : Nat → Token → List Byte → Nat → Nat → Nat → Token × List Byte
  | 0, tok, b, _, _, _ => (tok, b)
  | fuel+1, tok, b, i, pos, fullpos =>
    if i ≥ b.length then (tok, b)
    else
      let c := b.getD i 0
      if c = 60 then
        if b.getD (i+1) 0 = 47 then
          ctnLoop fuel { tok with isEndElement := true } b (i+2) (i+2) (i+2)
        else ctnLoop fuel tok b (i+1) (i+1) (i+1)
      else if c = 58 then
        ctnLoop fuel { tok with name := { tok.name with pfx := some (trim (sl b pos i)) } }
          b (i+1) (i+1) fullpos
      else if c = 62 ∨ c = 32 ∨ c = 9 ∨ c = 13 ∨ c = 10 then
        let i1 := if c = 62 ∧ b.getD (i-1) 0 = 47 then i - 1 else i
        ({ tok with name := { tok.name with
            loc := some (trim (sl b pos i1)),
            full := some (trim (sl b fullpos i1)) } }, b.drop i1)
      else ctnLoop fuel tok b (i+1) pos fullpos

/-- `consumeTagName`: parse `<`, optional `/` (end element), optional
`prefix:`, and the local name up to a terminator. -/
def consumeTagName (tok : Token) (b : List Byte) : Token × List Byte :=
  ctnLoop (b.length + 1) tok b 0 0 0

/-- Quoted-value scan of `consumeAttrs`: from the opening quote at `i`,
advance to the closing quote; `none` models the `return nil` taken when the
cursor reaches the second-to-last byte first. -/
def caQuote : Nat → List Byte → Nat → Option Nat
  | 0, _, _ => none
  | fuel+1, b, i =>
    if i + 2 = b.length then none
    else if b.getD (i+1) 0 = 34 then some (i+1)
    else caQuote fuel b (i+1)

/-- Loop of `consumeAttrs`: pending name parts (`pfx`, `loc`, `fl` mirror the
local variables `prefix`, `local`, `full`), slice starts `pos`/`fullpos`. -/
def caLoop : Nat → Token → List Byte → Nat → Nat → Nat →
    Option (List Byte) → Option (List Byte) → Option (List Byte) → Token × List Byte
  | 0, tok, b, _, _, _, _, _, _ => (tok, b)
  | fuel+1, tok, b, i, pos, fullpos, pfx, loc, fl =>
    if i ≥ b.length then (tok, b)
    else
      let c := b.getD i 0
      if c = 58 then
        caLoop fuel tok b (i+1) (i+1) fullpos (some (trim (sl b pos i))) loc fl
      else if c = 61 then
        caLoop fuel tok b (i+1) (i+1) fullpos pfx
          (some (trim (sl b pos i))) (some (trim (sl b fullpos i)))
      else if c = 34 then
        match caQuote (b.length + 1) b i with
        | none => (tok, [])
        | some i1 =>
          if (fl.getD []).length = 0 then
            caLoop fuel tok b (i1+1) pos fullpos pfx loc fl
          else
            let attr : Attr := ⟨⟨pfx, loc, fl⟩, trim (sl b (pos+1) i1)⟩
            caLoop fuel { tok with attrs := some ((tok.attrs.getD []) ++ [attr]) }
              b (i1+1) (i1+1) (i1+1) none none none
      else if c = 47 then
        caLoop fuel { tok with selfClosing := true } b (i+1) pos fullpos pfx loc fl
      else if c = 62 then (tok, b.drop (i+1))
      else caLoop fuel tok b (i+1) pos fullpos pfx loc fl

/-- `consumeAttrs`: repeatedly parse `name[:local]="value"` pairs (the value
scan is quote-aware), a bare `/` marks self-closing, `>` ends the tag. -/
def consumeAttrs (tok : Token) (b : List Byte) : Token × List Byte :=
  caLoop (b.length + 1) tok b 0 0 0 none none none

/-- `consumeCharData`: strip a `<![CDATA[` head and `]]>` tail when present,
then assign the trimmed rest to `Data`. -/
def consumeCharData (tok : Token) (b : List Byte) : Token :=
  let b1 := trimLeading b
  let b2 := if cdataOpen.length ≤ b1.length ∧ b1.take cdataOpen.length = cdataOpen
            then b1.drop cdataOpen.length else b1
  let b3 := if 3 ≤ b2.length ∧ b2.drop (b2.length - 3) = bstr "]]>"
            then b2.take (b2.length - 3) else b2
  { tok with data := some (trim b3) }

/-- Field extraction performed by `Token` on a raw span: clear the scratch
token, special-case `<?`/`<!` spans, otherwise parse tag name, attributes and
trailing character data.  The result is what `t.token` holds afterwards. -/
def extractToken (b : List Byte) : Token :=
  let s0 := consumeNonTagIdentifier clearToken b
  if s0.2.length > 0 then
    let s1 := consumeTagName s0.1 s0.2
    let s2 := consumeAttrs s1.1 s1.2
    consumeCharData s2.1 s2.2
  else s0.1

/-- The final normalization in `Token`: the returned copy gets nil `Attrs`
and nil `Data` when their lengths are zero. -/
def normalizeToken (tok : Token) : Token :=
  let tok1 := if (tok.attrs.getD []).length = 0 then { tok with attrs := none } else tok
  if (tok1.data.getD []).length = 0 then { tok1 with data := none } else tok1

/-- `Token`: sticky-error check; call `RawToken`; on a failure wrap non-EOF
errors with the byte position, return early (zero token) when the partial span
is empty or the failure is an unexpected EOF, otherwise record the wrapped
error sticky and fall through; extract fields from the span and return the
normalized copy with a nil error. -/
def Tokenizer.Token (t : Tokenizer) (fuel : Nat) :
    Tokenizer × Xmltokenizer.Token × Option Err :=
  match t.err with
  | some e => (t, zeroToken, some e)
  | none =>
    let r := t.RawToken fuel
    let t1 := r.1
    let b := r.2.1
    match r.2.2 with
    | some e0 =>
      let e1 := if Err.is e0 Err.eof then e0 else Err.bytePos t1.n e0
      if b.length = 0 ∨ Err.is e1 Err.unexpectedEOF = true then (t1, zeroToken, some e1)
      else
        let tok := extractToken b
        ({ t1 with err := some e1, token := tok }, normalizeToken tok, none)
    | none =>
      let tok := extractToken b
      ({ t1 with token := tok }, normalizeToken tok, none)

/-- Run up to `calls` invocations of `Token`, collecting the tokens returned
with a nil error and stopping at the first error (the terminal result). -/
def runTokenizer (t : Tokenizer) (fuel : Nat) : Nat → List Token × Option Err
  | 0 => ([], none)
  | calls+1 =>
    let r := t.Token fuel
    match r.2.2 with
    | some e => ([], some e)
    | none =>
      let rest := runTokenizer r.1 fuel calls
      (r.2.1 :: rest.1, rest.2)

/-- The token pool of token.go (`var pool = sync.Pool{New: func() any { return
new(Token) }}`), modelled as a free-list stack of tokens: `sync.Pool.Get` may
return any previously put object, modelled as the most recently put one. -/
def PoolState := List Token

/-- `GetToken`: pop a pooled token, or a freshly allocated zero `Token` when
the pool is empty.  No field is cleared on the way out. -/
def GetToken : PoolState → Token × PoolState
  | [] => (zeroToken, [])
  | tok :: rest => (tok, rest)

/-- `PutToken`: push the token back as-is.  No field is cleared on the way in. -/
def PutToken (tok : Token) (p : PoolState) : PoolState := tok :: p

/-- Modelled from the spec: `Token.IsEndElementOf` of the current token.go.
The token.go snapshot in `src/` is a stale revision (method-based
`IsEndElement`, `Name.Full[1:]` comparison, `Space`/`CharData` fields) that
contradicts both `token_test.go` (which sets the `IsEndElement` field and
expects `Full "worksheet"` vs `Full "worksheet"` to match) and tokenizer.go
(which writes `Name.Prefix`, `Data` and the `IsEndElement` field).  Following
the spec sentence — true iff `candidate.IsEndElement` and `candidate.Name.Full
== start.Name.Full` — with Go string comparison (a nil slice equals an empty
one as a string). -/
def Token.IsEndElementOf (t se : Token) : Bool :=
  t.isEndElement && (t.name.full.getD [] = se.name.full.getD [] : Bool)

/-! Concrete inputs used by the claim theorems and witnesses. -/

/-- The tokenizer over the document `<sample path="foo>bar>baz">`, read one
byte at a time (as in the repository's own tests). -/
def tC1 : Tokenizer :=
  New (bstr "<sample path=\"foo>bar>baz\">") [withReadBufferSize 1]

/-- The tokenizer over the document `<!-- hi -->`, read one byte at a time. -/
def tC4 : Tokenizer := New (bstr "<!-- hi -->") [withReadBufferSize 1]

/-- A tokenizer configured with `WithAutoGrowBufferMaxLimitSize(5)` and
`WithReadBufferSize(5)` over a document whose only token needs a 10-byte
buffer — twice the configured limit. -/
def tC3 : Tokenizer :=
  New (bstr "<abcdefgh>") [withReadBufferSize 5, withAutoGrowBufferMaxLimitSize 5]

/-- The error `manageBuffer` produces when it refuses to grow. -/
def growFailure (t : Tokenizer) : Err :=
  Err.couldNotGrow (t.buf.length + t.opts.readBufferSize)
    t.opts.autoGrowBufferMaxLimitSize Err.autoGrowExceedMaxLimit

/-- A tokenizer state mid-stream: the buffer holds the partial span `<a`, the
capacity and the grow limit are exhausted, the reader is drained.  Used to
witness the partial-span error path of `Token`. -/
def tC9 : Tokenizer :=
  ⟨[], 0, ⟨1, 1, 16⟩, bstr "<a", 2, 0, none, zeroToken⟩

/-- A tokenizer state carrying a recorded (sticky) terminal error. -/
def tC2 : Tokenizer :=
  ⟨bstr "<a/>", 0, defaultOptions, [], 0, 0, some Err.unexpectedEOF, zeroToken⟩

/-- A populated token, as a caller might hand back to the pool. -/
def populatedToken : Token :=
  ⟨⟨none, some (bstr "a"), some (bstr "a")⟩, none, some (bstr "x"), true, false⟩

/-- The tokenizer over the processing instruction `<?xml?>`, read one byte at
a time. -/
def tC5 : Tokenizer := New (bstr "<?xml?>") [withReadBufferSize 1]

/-- The state `tC9` reaches after its `Token` call: the buffer-limit error is
recorded (wrapped with byte position 0) and the scratch token holds the
extraction of the partial span `<a`. -/
def tC9done : Tokenizer :=
  ⟨[], 0, ⟨1, 1, 16⟩, bstr "<a", 2, 0,
   some (Err.bytePos 0 (Err.couldNotGrow 3 1 Err.autoGrowExceedMaxLimit)),
   ⟨⟨none, none, none⟩, some [], some (bstr "<a"), false, false⟩⟩

/-- The 4096 zero bytes of `make([]byte, 4096)`: the zero-initialized, never
written read buffer a 4096-chunk tokenizer starts with. -/
def zBuf : List Byte := List.replicate 4096 0

/-- `New (bstr "abc") [withReadBufferSize 4096]`, written out as a record. -/
def tB6 : Tokenizer :=
  ⟨[97, 98, 99], 0, ⟨4096, 1024000, 16⟩, zBuf, 8192, 0, none, zeroToken⟩

/-- `tB6` after the single refill that reads the whole document: the three
document bytes sit after 4096 zero bytes that were never overwritten. -/
def tB6a : Tokenizer :=
  ⟨[], 3, ⟨4096, 1024000, 16⟩, zBuf ++ [97, 98, 99], 8192, 0, none, zeroToken⟩

/-- `tB6a` after end-of-stream is recorded (the failed grow step had already
reallocated capacity to 8195). -/
def tB6b : Tokenizer :=
  ⟨[], 3, ⟨4096, 1024000, 16⟩, zBuf ++ [97, 98, 99], 8195, 0, some Err.eof, zeroToken⟩

/-- What `extractToken` makes of the span `zBuf ++ "abc"`. -/
def tokB6scratch : Token :=
  ⟨⟨none, none, none⟩, some [], some (zBuf ++ [97, 98, 99]), false, false⟩

/-- The (normalized) token the 4096-chunk run returns for the document `abc`:
its `Data` leaks the 4096 zero bytes of the read buffer. -/
def tokB6 : Token :=
  ⟨⟨none, none, none⟩, none, some (zBuf ++ [97, 98, 99]), false, false⟩

/-! Theorems. -/

/-- Claim C1: the complete document `<sample path="foo>bar>baz">` yields
exactly one token, with `Name.Local = "sample"` and the single attribute
`path="foo>bar>baz"`; the `>` bytes inside the double-quoted value terminate
neither the attribute nor the tag, and the run ends in plain end-of-stream. -/
theorem c1_sample_attr_quote_aware :
    runTokenizer tC1 500 3 =
      ([⟨⟨none, some (bstr "sample"), some (bstr "sample")⟩,
         some [⟨⟨none, some (bstr "path"), some (bstr "path")⟩, bstr "foo>bar>baz"⟩],
         none, false, false⟩],
       some Err.eof) := by
  rfl

/-- Claim C4 (counterexample): on the complete document `<!-- hi -->` the
single returned token does not carry `Data = "hi"`: the comment delimiters are
not stripped by the code. -/
theorem c4_comment_counterexample :
    (runTokenizer tC4 500 3).1.map Token.data ≠ [some (bstr "hi")] := by
  decide

/-- Claim C4 (amended): the document `<!-- hi -->` yields exactly one token
with empty `Name`, `SelfClosing = true`, and `Data` holding the entire span
`<!-- hi -->` verbatim, delimiters included. -/
theorem c4_comment_verbatim :
    runTokenizer tC4 500 3 =
      ([⟨⟨none, none, none⟩, none, some (bstr "<!-- hi -->"), true, false⟩],
       some Err.eof) := by
  rfl

/-- Claim C3 (counterexample): with `max_buffer_size` configured to 5 bytes, a
document whose only token needs a 10-byte buffer does not fail with
`BufferLimitExceeded`; it tokenizes completely (the limit is only checked on
the reallocation path, and the initial slack capacity of
`readBufferSize + 4096` absorbs the growth). -/
theorem c3_limit_counterexample :
    runTokenizer tC3 500 3 =
      ([⟨⟨none, some (bstr "abcdefgh"), some (bstr "abcdefgh")⟩, none, none,
         false, false⟩],
       some Err.eof) := by
  rfl

/-- Claim C3 (amended): a grow step fails — with the wrapped
`errAutoGrowBufferExceedMaxLimit` and the tokenizer state untouched — exactly
when the grown length `len(buf) + readBufferSize` exceeds both the current
capacity and the configured max limit; growth within capacity never consults
the limit. -/
theorem c3_growth_failure_condition (t : Tokenizer) :
    ((manageBuffer t).2 = some (growFailure t) ∧ (manageBuffer t).1 = t) ↔
      (t.bufCap < t.buf.length + t.opts.readBufferSize ∧
       t.opts.autoGrowBufferMaxLimitSize < t.buf.length + t.opts.readBufferSize) := by
  simp only [manageBuffer, growFailure]
  split_ifs with h1 h2
  · rcases h : t.rdata with _ | ⟨x, xs⟩ <;>
      simp [readAtLeast, h] <;> omega
  · simp <;> omega
  · rcases h : t.rdata with _ | ⟨x, xs⟩ <;>
      simp [readAtLeast, h] <;> omega

/-- Claim C8 (counterexample): a token handed back to the pool with populated
content is returned by the next acquire with that content intact — not
zero-valued. -/
theorem c8_pool_counterexample :
    (GetToken (PutToken populatedToken [])).1 = populatedToken ∧
      populatedToken ≠ zeroToken := by
  decide

/-- Claim C8 (amended): `GetToken` clears nothing: it returns a zero-valued
`Token` only when the pool must allocate afresh, and returns a token put back
via `PutToken` exactly as stored. -/
theorem c8_pool_behavior :
    GetToken ([] : PoolState) = (zeroToken, []) ∧
      ∀ (tok : Token) (p : PoolState), GetToken (PutToken tok p) = (tok, p) :=
  ⟨rfl, fun _ _ => rfl⟩

/-- Claim C7: `IsEndElementOf candidate start` is true exactly when the
candidate is an end element and its `Name.Full` equals the start token's
`Name.Full` (Go string comparison, under which a nil slice equals an empty
one). -/
theorem c7_is_end_element_of (t se : Token) :
    t.IsEndElementOf se = true ↔
      (t.isEndElement = true ∧ t.name.full.getD [] = se.name.full.getD []) := by
  simp [Token.IsEndElementOf]

/-- A slice wrapped in `Option` with a non-zero `getD []` length is not the
non-nil empty slice. -/
theorem ne_some_nil_of_len {α : Type} (o : Option (List α))
    (h : (o.getD []).length ≠ 0) : o ≠ some [] := by
  intro he
  rw [he] at h
  simp at h

/-- The normalization `Token` applies to the returned copy never leaves a
non-nil empty `Attrs` or `Data`. -/
theorem normalizeToken_no_empty (tok : Token) :
    (normalizeToken tok).attrs ≠ some [] ∧ (normalizeToken tok).data ≠ some [] := by
  simp only [normalizeToken]
  split_ifs with h1 h2 h3
  · exact ⟨by simp, by simp⟩
  · exact ⟨by simp, ne_some_nil_of_len tok.data (by simpa using h2)⟩
  · exact ⟨ne_some_nil_of_len tok.attrs (by simpa using h1), by simp⟩
  · exact ⟨ne_some_nil_of_len tok.attrs (by simpa using h1),
           ne_some_nil_of_len tok.data (by simpa using h3)⟩

/-- Claim C2: once a terminal error other than plain end-of-stream is
recorded, `Token` and `RawToken` both return exactly that recorded error and
leave the whole tokenizer state — including the unread byte source — entirely
untouched (no further I/O); `Reset` rebinds the source and clears the
recorded error. -/
theorem c2_sticky_error (t : Tokenizer) (e : Err) (fuel : Nat)
    (h : t.err = some e) (_he : e ≠ Err.eof) :
    t.Token fuel = (t, zeroToken, some e) ∧
    t.RawToken fuel = (t, [], some e) ∧
    ∀ rdata opts, (Reset t rdata opts).err = none := by
  refine ⟨?_, ?_, ?_⟩
  · simp [Tokenizer.Token, h]
  · simp [Tokenizer.RawToken, h]
  · intro rdata opts
    simp only [Reset]
    split_ifs <;> rfl

/-- Witness for C2 at a concrete sticky state: the recorded error is returned
by both calls with the state unchanged, and `Reset` clears it. -/
theorem c2_sticky_error_witness :
    Tokenizer.Token tC2 7 = (tC2, zeroToken, some Err.unexpectedEOF) ∧
    Tokenizer.RawToken tC2 7 = (tC2, [], some Err.unexpectedEOF) ∧
    (Reset tC2 (bstr "<b/>") []).err = none := by
  have h := c2_sticky_error tC2 Err.unexpectedEOF 7 rfl (by decide)
  exact ⟨h.1, h.2.1, h.2.2 (bstr "<b/>") []⟩

/-- Claim C10: every token value returned by `Token` — on the normal path, the
partial-span path and all error paths — has `Attrs = nil` whenever the
attribute count is zero and `Data = nil` whenever the character data is empty:
a non-nil zero-length `Attrs` or `Data` is never observable. -/
theorem c10_no_nonnil_empty (t : Tokenizer) (fuel : Nat) :
    (t.Token fuel).2.1.attrs ≠ some [] ∧ (t.Token fuel).2.1.data ≠ some [] := by
  rcases h : t.err with _ | e
  · rcases hr : t.RawToken fuel with ⟨t1, b, e?⟩
    rcases e? with _ | e0
    · simp only [Tokenizer.Token, h, hr]
      exact normalizeToken_no_empty _
    · simp only [Tokenizer.Token, h, hr]
      split_ifs <;>
        first
          | exact normalizeToken_no_empty _
          | exact ⟨by simp [zeroToken], by simp [zeroToken]⟩
  · simp only [Tokenizer.Token, h]
    exact ⟨by simp [zeroToken], by simp [zeroToken]⟩

/-- A successful `RawToken` implies there was no recorded error. -/
theorem rawToken_none_err (t : Tokenizer) (fuel : Nat) (t1 : Tokenizer)
    (b : List Byte) (hr : t.RawToken fuel = (t1, b, none)) : t.err = none := by
  rcases h : t.err with _ | e
  · rfl
  · simp [Tokenizer.RawToken, h] at hr

/-- Claim C5: whenever `RawToken` delivers a span beginning with `<?` or `<!`
(ProcInst, Directive/DOCTYPE or Comment), the token `Token` returns stores the
entire span verbatim — delimiters included — in `Data`, leaves `Name` empty,
and sets `SelfClosing`. -/
theorem c5_nontag_verbatim (t : Tokenizer) (fuel : Nat) (t1 : Tokenizer)
    (b : List Byte)
    (hr : t.RawToken fuel = (t1, b, none))
    (hlen : 2 ≤ b.length)
    (hpre : b.take 2 = bstr "<?" ∨ b.take 2 = bstr "<!") :
    t.Token fuel =
      ({ t1 with token := extractToken b },
       ⟨⟨none, none, none⟩, none, some b, true, false⟩, none) := by
  have ht : t.err = none := rawToken_none_err t fuel t1 b hr
  have hguard : ¬ (b.length < 2 ∨ (b.take 2 ≠ bstr "<?" ∧ b.take 2 ≠ bstr "<!")) := by
    push_neg
    exact ⟨hlen, fun h1 => hpre.resolve_left h1⟩
  have hx : extractToken b = ⟨⟨none, none, none⟩, some [], some b, true, false⟩ := by
    simp [extractToken, consumeNonTagIdentifier, hguard, clearToken]
  have hb : b.length ≠ 0 := by omega
  have hnorm : normalizeToken (extractToken b) =
      ⟨⟨none, none, none⟩, none, some b, true, false⟩ := by
    rw [hx]
    simp [normalizeToken, hb]
  simp only [Tokenizer.Token, ht, hr, hnorm]

/-- Witness for C5: the ProcInst document `<?xml?>` yields the verbatim token. -/
theorem c5_nontag_verbatim_witness :
    Tokenizer.Token tC5 500 =
      ({ (Tokenizer.RawToken tC5 500).1 with token := extractToken (bstr "<?xml?>") },
       ⟨⟨none, none, none⟩, none, some (bstr "<?xml?>"), true, false⟩, none) :=
  c5_nontag_verbatim tC5 500 (Tokenizer.RawToken tC5 500).1 (bstr "<?xml?>")
    (by rfl) (by decide) (by decide)

/-- `errors.Is` through a `bytePos` wrapper that is not itself the target. -/
theorem err_is_bytePos (n : Nat) (e target : Err)
    (hne : Err.bytePos n e ≠ target) :
    Err.is (Err.bytePos n e) target = Err.is e target := by
  simp [Err.is, hne]

/-- Claim C9: if `RawToken` fails with a non-EOF, non-unexpected-EOF error
while a non-empty partial span is buffered, the same `Token` call parses the
span and returns the resulting token with a nil error, recording the
position-wrapped error; every following call returns exactly that recorded
error with the state untouched. -/
theorem c9_partial_token (t : Tokenizer) (fuel : Nat) (t1 : Tokenizer)
    (b : List Byte) (e : Err)
    (hr : t.RawToken fuel = (t1, b, some e))
    (heof : Err.is e Err.eof = false)
    (hb : b.length ≠ 0)
    (hue : Err.is e Err.unexpectedEOF = false) :
    t.Token fuel =
      ({ t1 with err := some (Err.bytePos t1.n e), token := extractToken b },
       normalizeToken (extractToken b), none) ∧
    ∀ fuel2,
      Tokenizer.Token
          { t1 with err := some (Err.bytePos t1.n e), token := extractToken b } fuel2 =
        ({ t1 with err := some (Err.bytePos t1.n e), token := extractToken b },
         zeroToken, some (Err.bytePos t1.n e)) := by
  have ht : t.err = none := by
    rcases h : t.err with _ | e2
    · rfl
    · rw [Tokenizer.RawToken] at hr
      simp only [h] at hr
      have hb' : ([] : List Byte) = b := congrArg (fun x => x.2.1) hr
      rw [← hb'] at hb
      simp at hb
  have hwrap : Err.is (Err.bytePos t1.n e) Err.unexpectedEOF = false := by
    rw [err_is_bytePos t1.n e Err.unexpectedEOF (by simp)]
    exact hue
  constructor
  · simp only [Tokenizer.Token, ht, hr, heof]
    simp [hb, hwrap]
  · intro fuel2
    simp [Tokenizer.Token]

/-- `getD` on a replicate, below its length. -/
theorem getD_replicate {n j : Nat} {a d : Byte} (h : j < n) :
    (List.replicate n a).getD j d = a := by
  rw [List.getD_eq_getElem _ _ (by simpa using h)]
  exact List.getElem_replicate a _

/-- The zero buffer is 4096 bytes long. -/
theorem zBuf_length : zBuf.length = 4096 := by
  simp only [zBuf, List.length_replicate]

/-- Every byte of the span `zBuf ++ "abc"` is `0`, `97`, `98` or `99`. -/
theorem bufB6_getD (j : Nat) (hj : j < 4099) :
    (zBuf ++ [97, 98, 99]).getD j 0 = 0 ∨ (zBuf ++ [97, 98, 99]).getD j 0 = 97 ∨
    (zBuf ++ [97, 98, 99]).getD j 0 = 98 ∨ (zBuf ++ [97, 98, 99]).getD j 0 = 99 := by
  by_cases h : j < 4096
  · left
    rw [List.getD_append _ _ _ _ (by rw [zBuf_length]; omega)]
    simp only [zBuf]
    exact getD_replicate h
  · rw [List.getD_append_right _ _ _ _ (by rw [zBuf_length]; omega)]
    have h3 : j - zBuf.length = 0 ∨ j - zBuf.length = 1 ∨ j - zBuf.length = 2 := by
      rw [zBuf_length]; omega
    rcases h3 with h3 | h3 | h3 <;> rw [h3] <;> simp

/-- `rawTokenLoop` advances one position per fuel unit over a run of buffered
bytes that are neither `<` nor `>`. -/
theorem rawTokenLoop_skip (m : Nat) :
    ∀ (fuel : Nat) (t : Tokenizer) (pivot pos : Nat) (oc : Int),
      pos + m ≤ t.buf.length →
      (∀ j, pos ≤ j → j < pos + m → t.buf.getD j 0 ≠ 60 ∧ t.buf.getD j 0 ≠ 62) →
      rawTokenLoop (m + fuel) t pivot pos oc = rawTokenLoop fuel t pivot (pos + m) oc := by
  induction m with
  | zero => intro fuel t pivot pos oc _ _; simp
  | succ k ih =>
    intro fuel t pivot pos oc hlen hz
    obtain ⟨hz1, hz2⟩ := hz pos le_rfl (by omega)
    have step : rawTokenLoop (k + 1 + fuel) t pivot pos oc =
        rawTokenLoop (k + fuel) t pivot (pos + 1) oc := by
      rw [show k + 1 + fuel = (k + fuel) + 1 by omega]
      simp only [rawTokenLoop]
      rw [if_neg (by omega), if_neg hz1, if_neg hz2]
    rw [step, ih fuel t pivot (pos + 1) oc (by omega)
        (fun j hj1 hj2 => hz j (by omega) (by omega)),
      show pos + 1 + k = pos + (k + 1) by omega]

/-- `ctnLoop` advances one position per fuel unit over bytes that are none of
`<ᵃ`, `:`, `>`, space, tab, CR, LF. -/
theorem ctnLoop_skip (m : Nat) :
    ∀ (fuel : Nat) (tok : Token) (b : List Byte) (i pos fullpos : Nat),
      i + m ≤ b.length →
      (∀ j, i ≤ j → j < i + m →
        b.getD j 0 ≠ 60 ∧ b.getD j 0 ≠ 58 ∧ b.getD j 0 ≠ 62 ∧ b.getD j 0 ≠ 32 ∧
        b.getD j 0 ≠ 9 ∧ b.getD j 0 ≠ 13 ∧ b.getD j 0 ≠ 10) →
      ctnLoop (m + fuel) tok b i pos fullpos = ctnLoop fuel tok b (i + m) pos fullpos := by
  induction m with
  | zero => intro fuel tok b i pos fullpos _ _; simp
  | succ k ih =>
    intro fuel tok b i pos fullpos hlen hz
    obtain ⟨h1, h2, h3, h4, h5, h6, h7⟩ := hz i le_rfl (by omega)
    have step : ctnLoop (k + 1 + fuel) tok b i pos fullpos =
        ctnLoop (k + fuel) tok b (i + 1) pos fullpos := by
      rw [show k + 1 + fuel = (k + fuel) + 1 by omega]
      simp only [ctnLoop]
      rw [if_neg (by omega), if_neg h1, if_neg h2,
        if_neg (fun hc => by
          rcases hc with hc | hc | hc | hc | hc
          exacts [h3 hc, h4 hc, h5 hc, h6 hc, h7 hc])]
    rw [step, ih fuel tok b (i + 1) pos fullpos (by omega)
        (fun j hj1 hj2 => hz j (by omega) (by omega)),
      show i + 1 + k = i + (k + 1) by omega]

/-- `caLoop` advances one position per fuel unit over bytes that are none of
`:`, `=`, `"`, `/`, `>`. -/
theorem caLoop_skip (m : Nat) :
    ∀ (fuel : Nat) (tok : Token) (b : List Byte) (i pos fullpos : Nat)
      (pfx loc fl : Option (List Byte)),
      i + m ≤ b.length →
      (∀ j, i ≤ j → j < i + m →
        b.getD j 0 ≠ 58 ∧ b.getD j 0 ≠ 61 ∧ b.getD j 0 ≠ 34 ∧ b.getD j 0 ≠ 47 ∧
        b.getD j 0 ≠ 62) →
      caLoop (m + fuel) tok b i pos fullpos pfx loc fl =
        caLoop fuel tok b (i + m) pos fullpos pfx loc fl := by
  induction m with
  | zero => intro fuel tok b i pos fullpos pfx loc fl _ _; simp
  | succ k ih =>
    intro fuel tok b i pos fullpos pfx loc fl hlen hz
    obtain ⟨h1, h2, h3, h4, h5⟩ := hz i le_rfl (by omega)
    have step : caLoop (k + 1 + fuel) tok b i pos fullpos pfx loc fl =
        caLoop (k + fuel) tok b (i + 1) pos fullpos pfx loc fl := by
      rw [show k + 1 + fuel = (k + fuel) + 1 by omega]
      simp only [caLoop]
      rw [if_neg (by omega), if_neg h1, if_neg h2, if_neg h3, if_neg h4, if_neg h5]
    rw [step, ih fuel tok b (i + 1) pos fullpos pfx loc fl (by omega)
        (fun j hj1 hj2 => hz j (by omega) (by omega)),
      show i + 1 + k = i + (k + 1) by omega]

/-- Length of the leaked span. -/
theorem bufB6_length : (zBuf ++ [97, 98, 99]).length = 4099 := by
  simp [zBuf_length]

/-- `memmoveRemainingBytes` with pivot 0 changes nothing. -/
theorem memmove_zero (t : Tokenizer) :
    memmoveRemainingBytes t 0 = (t, t.cur, t.buf.length) := by
  simp [memmoveRemainingBytes]

/-- The single refill of the 4096-chunk run appends the whole 3-byte document
after the 4096 zero bytes of the fresh buffer. -/
theorem manageBuffer_tB6 : manageBuffer tB6 = (tB6a, none) := by
  have h1 : manageBuffer tB6 = readAtLeast tB6 4096 8192 := by
    simp only [manageBuffer]
    rw [show tB6.buf.length = 4096 from zBuf_length,
        show tB6.opts.readBufferSize = 4096 from rfl,
        show tB6.bufCap = 8192 from rfl]
    all_goals norm_num
  exact h1.trans rfl

/-- The next grow step of the 4096-chunk run reallocates capacity to 8195 and
then hits end-of-stream. -/
theorem manageBuffer_tB6a :
    manageBuffer tB6a =
      (⟨[], 3, ⟨4096, 1024000, 16⟩, zBuf ++ [97, 98, 99], 8195, 0, none, zeroToken⟩,
       some Err.eof) := by
  have h1 : manageBuffer tB6a = readAtLeast tB6a 4096 8195 := by
    simp only [manageBuffer]
    rw [show tB6a.buf.length = 4099 from bufB6_length,
        show tB6a.opts.readBufferSize = 4096 from rfl,
        show tB6a.bufCap = 8192 from rfl,
        show tB6a.opts.autoGrowBufferMaxLimitSize = 1024000 from rfl]
    all_goals norm_num
  exact h1.trans rfl

/-- Taking the whole leaked span. -/
theorem take_bufB6 : (zBuf ++ [97, 98, 99]).take 4099 = zBuf ++ [97, 98, 99] :=
  List.take_of_length_le (le_of_eq bufB6_length)

/-- A successful refill step of `rawTokenLoop`, at pivot 0 and cursor 0. -/
theorem rawTokenLoop_refill0 (fuel : Nat) (t t2 : Tokenizer) (pos : Nat) (oc : Int)
    (hcur : t.cur = 0) (hpos : pos ≥ t.buf.length)
    (hmb : manageBuffer t = (t2, none)) :
    rawTokenLoop (fuel + 1) t 0 pos oc = rawTokenLoop fuel t2 0 t.buf.length oc := by
  simp only [rawTokenLoop]
  rw [if_pos hpos, memmove_zero, hcur, hmb]

/-- A refill step of `rawTokenLoop` failing with an error, at pivot 0, cursor
0 and balanced bracket depth. -/
theorem rawTokenLoop_refill0_err (fuel : Nat) (t t2 : Tokenizer) (pos : Nat)
    (e : Err) (hcur : t.cur = 0) (hpos : pos ≥ t.buf.length)
    (hmb : manageBuffer t = (t2, some e)) :
    rawTokenLoop (fuel + 1) t 0 pos 0 =
      ({ t2 with err := some e }, sl t2.buf 0 t.buf.length, some e) := by
  simp only [rawTokenLoop]
  rw [if_pos hpos, memmove_zero, hcur, hmb]
  simp

/-- The raw-token scan of the 4096-chunk run over the tagless document `abc`
returns the entire buffer — 4096 zero bytes followed by the document — as the
final partial span, with plain end-of-stream. -/
theorem rawTokenLoop_tB6 :
    rawTokenLoop 10000 tB6 0 0 0 = (tB6b, zBuf ++ [97, 98, 99], some Err.eof) := by
  have h1 := rawTokenLoop_skip 4096 5904 tB6 0 0 0
    (by rw [show tB6.buf.length = 4096 from zBuf_length] <;> omega)
    (fun j _ hj2 => by
      have h0 : tB6.buf.getD j 0 = 0 := by
        rw [show tB6.buf = zBuf from rfl]
        simp only [zBuf]
        exact getD_replicate (by omega)
      rw [h0]
      exact ⟨by decide, by decide⟩)
  have h2 := rawTokenLoop_refill0 5903 tB6 tB6a 4096 0 rfl
    (by rw [show tB6.buf.length = 4096 from zBuf_length] <;> omega) manageBuffer_tB6
  rw [show tB6.buf.length = 4096 from zBuf_length] at h2
  have h3 := rawTokenLoop_skip 3 5900 tB6a 0 4096 0
    (by rw [show tB6a.buf.length = 4099 from bufB6_length] <;> omega)
    (fun j hj1 hj2 => by
      have h0 : tB6a.buf = zBuf ++ [97, 98, 99] := rfl
      rw [h0]
      rcases bufB6_getD j (by omega) with hb | hb | hb | hb <;> rw [hb] <;>
        exact ⟨by decide, by decide⟩)
  have h4 := rawTokenLoop_refill0_err 5899 tB6a
    ⟨[], 3, ⟨4096, 1024000, 16⟩, zBuf ++ [97, 98, 99], 8195, 0, none, zeroToken⟩
    4099 Err.eof rfl
    (by rw [show tB6a.buf.length = 4099 from bufB6_length] <;> omega) manageBuffer_tB6a
  rw [show tB6a.buf.length = 4099 from bufB6_length] at h4
  simp only [sl, List.drop_zero, Nat.sub_zero] at h4
  rw [take_bufB6] at h4
  exact h1.trans (h2.trans (h3.trans h4))

/-- `RawToken` of the 4096-chunk run. -/
theorem rawToken_tB6 :
    Tokenizer.RawToken tB6 10000 = (tB6b, zBuf ++ [97, 98, 99], some Err.eof) := by
  have h : Tokenizer.RawToken tB6 10000 = rawTokenLoop 10000 tB6 0 0 0 := rfl
  exact h.trans rawTokenLoop_tB6

/-- First two bytes of the leaked span. -/
theorem take2_bufB6 : (zBuf ++ [97, 98, 99]).take 2 = [0, 0] := by
  have h : (zBuf ++ [97, 98, 99]).take 2 = zBuf.take 2 :=
    List.take_append_of_le_length (by rw [zBuf_length] <;> omega)
  exact h.trans rfl

/-- First nine bytes of the leaked span. -/
theorem take9_bufB6 : (zBuf ++ [97, 98, 99]).take 9 = List.replicate 9 0 := by
  have h : (zBuf ++ [97, 98, 99]).take 9 = zBuf.take 9 :=
    List.take_append_of_le_length (by rw [zBuf_length] <;> omega)
  exact h.trans rfl

/-- Last three bytes of the leaked span. -/
theorem drop4096_bufB6 : (zBuf ++ [97, 98, 99]).drop 4096 = [97, 98, 99] := by
  rw [show (4096 : Nat) = zBuf.length from zBuf_length.symm, List.drop_left]

/-- First byte of the leaked span. -/
theorem getD0_bufB6 : (zBuf ++ [97, 98, 99]).getD 0 0 = 0 := by
  have h : (zBuf ++ [97, 98, 99]).getD 0 0 = zBuf.getD 0 0 :=
    List.getD_append _ _ _ _ (by rw [zBuf_length] <;> omega)
  exact h.trans rfl

/-- Second-to-last byte index of the leaked span holds `c` (99). -/
theorem getD4098_bufB6 : (zBuf ++ [97, 98, 99]).getD 4098 0 = 99 := by
  have h : (zBuf ++ [97, 98, 99]).getD 4098 0 = [97, 98, 99].getD (4098 - zBuf.length) 0 :=
    List.getD_append_right _ _ _ _ (by rw [zBuf_length] <;> omega)
  rw [zBuf_length] at h
  exact h.trans rfl

/-- One-step unfolding of `trimLeadingAux`. -/
theorem trimLeadingAux_succ (b : List Byte) (fuel i start : Nat) :
    trimLeadingAux b (fuel + 1) i start =
      if i < b.length then
        if b.getD i 0 = 13 then
          if i + 1 < b.length ∧ b.getD (i + 1) 0 = 10 then
            trimLeadingAux b fuel (i + 2) (start + 2)
          else trimLeadingAux b fuel (i + 1) start
        else if b.getD i 0 = 10 ∨ b.getD i 0 = 32 ∨ b.getD i 0 = 9 then
          trimLeadingAux b fuel (i + 1) (start + 1)
        else b.drop start
      else b.drop start := rfl

/-- One-step unfolding of `trimTrailingAux`. -/
theorem trimTrailingAux_succ (b : List Byte) (fuel i e : Nat) :
    trimTrailingAux b (fuel + 1) (i + 1) e =
      if b.getD i 0 = 10 then
        trimTrailingAux b fuel i
          (if 2 ≤ i ∧ b.getD (i - 1) 0 = 13 then e - 1 - 1 else e - 1)
      else if b.getD i 0 = 32 ∨ b.getD i 0 = 9 then trimTrailingAux b fuel i (e - 1)
      else b.take e := rfl

/-- `trimPrefix` stops immediately on a non-whitespace head byte. -/
theorem trimLeadingAux_step_stop (b : List Byte) (fuel i start : Nat)
    (hlt : i < b.length) (h13 : b.getD i 0 ≠ 13)
    (hws : ¬(b.getD i 0 = 10 ∨ b.getD i 0 = 32 ∨ b.getD i 0 = 9)) :
    trimLeadingAux b (fuel + 1) i start = b.drop start := by
  rw [trimLeadingAux_succ, if_pos hlt, if_neg h13, if_neg hws]

/-- `trimSuffix` stops immediately on a non-whitespace last byte. -/
theorem trimTrailingAux_step_stop (b : List Byte) (fuel i e : Nat)
    (h10 : b.getD i 0 ≠ 10) (hws : ¬(b.getD i 0 = 32 ∨ b.getD i 0 = 9)) :
    trimTrailingAux b (fuel + 1) (i + 1) e = b.take e := by
  rw [trimTrailingAux_succ, if_neg h10, if_neg hws]

/-- `trimPrefix` leaves the leaked span unchanged (its first byte is a NUL,
not whitespace). -/
theorem trimLeading_bufB6 :
    trimLeading (zBuf ++ [97, 98, 99]) = zBuf ++ [97, 98, 99] := by
  have h : trimLeading (zBuf ++ [97, 98, 99]) =
      trimLeadingAux (zBuf ++ [97, 98, 99]) (4099 + 1) 0 0 := by
    simp only [trimLeading, bufB6_length]
  have h2 : trimLeadingAux (zBuf ++ [97, 98, 99]) (4099 + 1) 0 0 =
      (zBuf ++ [97, 98, 99]).drop 0 :=
    trimLeadingAux_step_stop (zBuf ++ [97, 98, 99]) 4099 0 0
      (by rw [bufB6_length] <;> omega)
      (by rw [getD0_bufB6] <;> decide)
      (by rw [getD0_bufB6] <;> decide)
  rw [List.drop_zero] at h2
  exact h.trans h2

/-- `trim` leaves the leaked span unchanged (NUL head, letter tail). -/
theorem trim_bufB6 : trim (zBuf ++ [97, 98, 99]) = zBuf ++ [97, 98, 99] := by
  have h : trim (zBuf ++ [97, 98, 99]) =
      trimTrailingAux (zBuf ++ [97, 98, 99]) (4099 + 1) 4099 4099 := by
    simp only [trim, trimLeading_bufB6, trimTrailing, bufB6_length]
  have h2 : trimTrailingAux (zBuf ++ [97, 98, 99]) (4099 + 1) (4098 + 1) 4099 =
      (zBuf ++ [97, 98, 99]).take 4099 :=
    trimTrailingAux_step_stop (zBuf ++ [97, 98, 99]) 4099 4098 4099
      (by rw [getD4098_bufB6] <;> decide)
      (by rw [getD4098_bufB6] <;> decide)
  rw [take_bufB6] at h2
  exact h.trans
    ((show trimTrailingAux (zBuf ++ [97, 98, 99]) (4099 + 1) 4099 4099 =
        trimTrailingAux (zBuf ++ [97, 98, 99]) (4099 + 1) (4098 + 1) 4099 from rfl).trans h2)

/-- `ctnLoop` stops when the index reaches the end. -/
theorem ctnLoop_stop (fuel : Nat) (tok : Token) (b : List Byte) (i pos fullpos : Nat)
    (h : i ≥ b.length) : ctnLoop (fuel + 1) tok b i pos fullpos = (tok, b) := by
  simp only [ctnLoop]
  rw [if_pos h]

/-- `caLoop` stops when the index reaches the end. -/
theorem caLoop_stop (fuel : Nat) (tok : Token) (b : List Byte) (i pos fullpos : Nat)
    (pfx loc fl : Option (List Byte)) (h : i ≥ b.length) :
    caLoop (fuel + 1) tok b i pos fullpos pfx loc fl = (tok, b) := by
  simp only [caLoop]
  rw [if_pos h]

/-- `consumeTagName` finds no name in the leaked span (no `<` and no
terminator byte occurs). -/
theorem consumeTagName_bufB6 :
    consumeTagName clearToken (zBuf ++ [97, 98, 99]) =
      (clearToken, zBuf ++ [97, 98, 99]) := by
  have h : consumeTagName clearToken (zBuf ++ [97, 98, 99]) =
      ctnLoop (4099 + 1) clearToken (zBuf ++ [97, 98, 99]) 0 0 0 := by
    simp only [consumeTagName, bufB6_length]
  have hs := ctnLoop_skip 4099 1 clearToken (zBuf ++ [97, 98, 99]) 0 0 0
    (by rw [bufB6_length] <;> omega)
    (fun j hj1 hj2 => by
      rcases bufB6_getD j (by omega) with hb | hb | hb | hb <;> rw [hb] <;> decide)
  have hstop : ctnLoop 1 clearToken (zBuf ++ [97, 98, 99]) (0 + 4099) 0 0 =
      (clearToken, zBuf ++ [97, 98, 99]) :=
    ctnLoop_stop 0 clearToken (zBuf ++ [97, 98, 99]) (0 + 4099) 0 0
      (by rw [bufB6_length] <;> omega)
  exact h.trans (hs.trans hstop)

/-- `consumeAttrs` finds no attribute in the leaked span. -/
theorem consumeAttrs_bufB6 :
    consumeAttrs clearToken (zBuf ++ [97, 98, 99]) =
      (clearToken, zBuf ++ [97, 98, 99]) := by
  have h : consumeAttrs clearToken (zBuf ++ [97, 98, 99]) =
      caLoop (4099 + 1) clearToken (zBuf ++ [97, 98, 99]) 0 0 0 none none none := by
    simp only [consumeAttrs, bufB6_length]
  have hs := caLoop_skip 4099 1 clearToken (zBuf ++ [97, 98, 99]) 0 0 0 none none none
    (by rw [bufB6_length] <;> omega)
    (fun j hj1 hj2 => by
      rcases bufB6_getD j (by omega) with hb | hb | hb | hb <;> rw [hb] <;> decide)
  have hstop : caLoop 1 clearToken (zBuf ++ [97, 98, 99]) (0 + 4099) 0 0 none none none =
      (clearToken, zBuf ++ [97, 98, 99]) :=
    caLoop_stop 0 clearToken (zBuf ++ [97, 98, 99]) (0 + 4099) 0 0 none none none
      (by rw [bufB6_length] <;> omega)
  exact h.trans (hs.trans hstop)

/-- `consumeCharData` stores the whole leaked span (no CDATA markers). -/
theorem consumeCharData_bufB6 :
    consumeCharData clearToken (zBuf ++ [97, 98, 99]) = tokB6scratch := by
  have hc1 : ¬(cdataOpen.length ≤ (zBuf ++ [97, 98, 99]).length ∧
      (zBuf ++ [97, 98, 99]).take cdataOpen.length = cdataOpen) := by
    have h9 : (zBuf ++ [97, 98, 99]).take cdataOpen.length = List.replicate 9 0 :=
      take9_bufB6
    intro hc
    rw [h9] at hc
    exact absurd hc.2 (by decide)
  have hc2 : ¬(3 ≤ (zBuf ++ [97, 98, 99]).length ∧
      (zBuf ++ [97, 98, 99]).drop ((zBuf ++ [97, 98, 99]).length - 3) = bstr "]]>") := by
    intro hc
    rw [bufB6_length, show (4099 : Nat) - 3 = 4096 from rfl, drop4096_bufB6] at hc
    exact absurd hc.2 (by decide)
  have h : consumeCharData clearToken (zBuf ++ [97, 98, 99]) =
      { clearToken with data := some (trim (zBuf ++ [97, 98, 99])) } := by
    simp only [consumeCharData, trimLeading_bufB6, if_neg hc1, if_neg hc2]
  rw [trim_bufB6] at h
  exact h

/-- Field extraction of the leaked span: everything lands in `Data`. -/
theorem extract_bufB6 : extractToken (zBuf ++ [97, 98, 99]) = tokB6scratch := by
  have h0 : consumeNonTagIdentifier clearToken (zBuf ++ [97, 98, 99]) =
      (clearToken, zBuf ++ [97, 98, 99]) := by
    have hc : (zBuf ++ [97, 98, 99]).length < 2 ∨
        ((zBuf ++ [97, 98, 99]).take 2 ≠ bstr "<?" ∧
         (zBuf ++ [97, 98, 99]).take 2 ≠ bstr "<!") := by
      refine Or.inr ?_
      rw [take2_bufB6]
      exact ⟨by decide, by decide⟩
    simp only [consumeNonTagIdentifier, if_pos hc]
  simp only [extractToken, h0, bufB6_length, consumeTagName_bufB6, consumeAttrs_bufB6,
    consumeCharData_bufB6]
  all_goals rw [if_pos (show (4099 : Nat) > 0 by omega)]

/-- Normalization of the extracted token: zero attributes become nil, the
4099-byte data survives. -/
theorem normalize_tokB6 : normalizeToken tokB6scratch = tokB6 := by
  simp only [normalizeToken, tokB6scratch, tokB6]
  norm_num [bufB6_length]

/-- `Token` on a state whose `RawToken` fails with plain end-of-stream while a
non-empty partial span is buffered: the span is parsed, the end-of-stream error
is recorded sticky and the parsed token is returned with a nil error. -/
theorem token_eof_partial (t : Tokenizer) (fuel : Nat) (t1 : Tokenizer)
    (b : List Byte) (hr : t.RawToken fuel = (t1, b, some Err.eof))
    (hb : b.length ≠ 0) :
    Tokenizer.Token t fuel =
      ({ t1 with err := some Err.eof, token := extractToken b },
       normalizeToken (extractToken b), none) := by
  have ht : t.err = none := by
    rcases h : t.err with _ | e2
    · rfl
    · rw [Tokenizer.RawToken] at hr
      simp only [h] at hr
      have hb2 : ([] : List Byte) = b := congrArg (fun x => x.2.1) hr
      rw [← hb2] at hb
      simp at hb
  simp only [Tokenizer.Token, ht, hr]
  simp [hb, Err.is]

/-- The first `Token` call of the 4096-chunk run returns the leaked token. -/
theorem token_tB6 :
    Tokenizer.Token tB6 10000 = ({ tB6b with token := tokB6scratch }, tokB6, none) := by
  have h := token_eof_partial tB6 10000 tB6b (zBuf ++ [97, 98, 99]) rawToken_tB6
    (by rw [bufB6_length]; omega)
  rw [extract_bufB6, normalize_tokB6] at h
  exact h

/-- The second `Token` call of the 4096-chunk run returns the recorded
end-of-stream error. -/
theorem token_tB6_second :
    Tokenizer.Token { tB6b with token := tokB6scratch } 10000 =
      ({ tB6b with token := tokB6scratch }, zeroToken, some Err.eof) := rfl

/-- A `runTokenizer` step whose `Token` call succeeds collects the token. -/
theorem runTokenizer_step (t : Tokenizer) (fuel calls : Nat) (t2 : Tokenizer)
    (tok : Token) (htk : Tokenizer.Token t fuel = (t2, tok, none)) :
    runTokenizer t fuel (calls + 1) =
      (tok :: (runTokenizer t2 fuel calls).1, (runTokenizer t2 fuel calls).2) := by
  simp only [runTokenizer, htk]

/-- A `runTokenizer` step whose `Token` call fails stops with that error. -/
theorem runTokenizer_stop (t : Tokenizer) (fuel calls : Nat) (t2 : Tokenizer)
    (tok : Token) (e : Err) (htk : Tokenizer.Token t fuel = (t2, tok, some e)) :
    runTokenizer t fuel (calls + 1) = ([], some e) := by
  simp only [runTokenizer, htk]

/-- The whole 4096-chunk run: one leaked token, then end-of-stream. -/
theorem run_tB6 : runTokenizer tB6 10000 2 = ([tokB6], some Err.eof) := by
  have h2 := runTokenizer_stop { tB6b with token := tokB6scratch } 10000 0
    { tB6b with token := tokB6scratch } zeroToken Err.eof token_tB6_second
  have h1 := runTokenizer_step tB6 10000 1 { tB6b with token := tokB6scratch } tokB6
    token_tB6
  rw [show (0 : Nat) + 1 = 1 from rfl] at h2
  rw [h2] at h1
  exact h1

/-- Claim C6 (code bug): chunking transparency fails.  Tokenizing the
document `abc` with read buffer size 1 and with read buffer size 4096 yields
different token sequences: the tokenizer scans the zero-initialized, never
written prefix of its own read buffer (one byte for size 1, 4096 bytes for
size 4096) and, because the document contains no `<`, returns it inside the
final partial span, so the single token's `Data` is `0x00·"abc"` in one run
and `0x00⁴⁰⁹⁶·"abc"` in the other. -/
theorem c6_chunking_divergence :
    runTokenizer (New (bstr "abc") [withReadBufferSize 1]) 10000 2 ≠
      runTokenizer (New (bstr "abc") [withReadBufferSize 4096]) 10000 2 := by
  have hA : runTokenizer (New (bstr "abc") [withReadBufferSize 1]) 10000 2 =
      ([⟨⟨none, none, none⟩, none, some [0, 97, 98, 99], false, false⟩],
       some Err.eof) := by
    rfl
  have hB : runTokenizer (New (bstr "abc") [withReadBufferSize 4096]) 10000 2 =
      ([tokB6], some Err.eof) := by
    have hNew : New (bstr "abc") [withReadBufferSize 4096] = tB6 := rfl
    have h := run_tB6
    rw [← hNew] at h
    exact h
  rw [hA, hB]
  intro h
  have h1 := congrArg (fun r => ((r.1.headD zeroToken).data.getD []).length) h
  simp only [List.headD_cons, Option.getD_some, tokB6] at h1
  rw [bufB6_length] at h1
  norm_num at h1

/-- Witness for C9 at a concrete mid-stream state hitting the buffer-growth
limit with the partial span `<a` buffered. -/
theorem c9_partial_token_witness :
    Tokenizer.Token tC9 50 =
      (tC9done, ⟨⟨none, none, none⟩, none, some (bstr "<a"), false, false⟩, none) ∧
    Tokenizer.Token tC9done 7 =
      (tC9done, zeroToken,
       some (Err.bytePos 0 (Err.couldNotGrow 3 1 Err.autoGrowExceedMaxLimit))) := by
  have h := c9_partial_token tC9 50
    ⟨[], 0, ⟨1, 1, 16⟩, bstr "<a", 2, 0,
     some (Err.couldNotGrow 3 1 Err.autoGrowExceedMaxLimit), zeroToken⟩
    (bstr "<a") (Err.couldNotGrow 3 1 Err.autoGrowExceedMaxLimit)
    (by decide) (by decide) (by decide) (by decide)
  exact ⟨h.1, h.2 7⟩

end Xmltokenizer
